import Mathlib

/-!
Shallow embedding of the computational core of the Opioid-sim repository
(`src/App.jsx`): growth heuristics, PK parameter resolver, dose-rate unit
converter, dosing-event timeline expansion, and the fixed-step Euler
concentration simulator.

Conventions of the embedding:
* JavaScript numbers are modelled as exact rationals (`ℚ`).  Decimal literals
  of the source are mapped to the corresponding exact rationals.
* `Math.round` is round-half-up (`jsRound`), which is the JS semantics;
  `x.toFixed(2)` followed by `parseFloat` is `round2`.
* Division in `ℚ` is total with `x / 0 = 0`; consequently the JS `NaN` /
  `Infinity` paths (`isNaN`, `Number.isFinite` resets) are vacuous here and
  are noted in comments where they occur in the source.
* `Math.pow(x, 0.75)` (written `x ** 0.75` in the source) is irrational in
  general, so the parameter resolver is parametrised by an arbitrary function
  `rpow75 : ℚ → ℚ` standing for `(·) ** 0.75`; every theorem about the
  resolver holds for every such function.
-/

namespace OpioidSim

/-- JS `Math.round`: round half up. -/
def jsRound (x : ℚ) : ℤ := ⌊x + 1/2⌋

/-- JS `parseFloat(x.toFixed(2))`: round to two decimals. -/
def round2 (x : ℚ) : ℚ := (jsRound (x * 100) : ℚ) / 100

/-- The fixed drug enumeration (`DrugId` of the spec). -/
inductive Drug
  | Fentanyl
  | Remifentanil
  | Morphine
  | Hydromorphone
  | Methadone
  | Sufentanil
deriving DecidableEq, Repr

inductive Gender
  | male
  | female
deriving DecidableEq, Repr

/-- Patient covariates.  `weight = 0` models the JS falsy/missing weight. -/
structure Patient where
  age : ℚ
  weight : ℚ
  height : ℚ
  gender : Gender
deriving DecidableEq, Repr

structure PKParams where
  V1 : ℚ
  V2 : ℚ
  V3 : ℚ
  Cl : ℚ
  Q2 : ℚ
  Q3 : ℚ
  ke0 : ℚ
deriving DecidableEq, Repr

structure Growth where
  height : ℚ
  weight : ℚ
deriving DecidableEq, Repr

/-- `estimateGrowth` from the source (App.jsx lines 87-108). -/
def estimateGrowth (age : ℚ) (gender : Gender) : Growth :=
  if age < 0 then ⟨50, 3⟩
  else if age = 0 then ⟨60, 6⟩
  else if age ≤ 12 then
    ⟨(jsRound (75 + (age - 1) * 6.8) : ℚ), (jsRound (9 + (age - 1) * 3.0) : ℚ)⟩
  else if age ≤ 18 then
    match gender with
    | .male =>
        ⟨(min (jsRound (150 + (age - 12) * 3.5)) 171 : ℤ),
         (min (jsRound (40 + (age - 12) * 4.2)) 65 : ℤ)⟩
    | .female =>
        ⟨(min (jsRound (150 + (age - 12) * 1.5)) 158 : ℤ),
         (min (jsRound (40 + (age - 12) * 2.0)) 53 : ℤ)⟩
  else
    match gender with
    | .male => ⟨171, 68⟩
    | .female => ⟨158, 53⟩

/-- `calculateLBM` (James formula; App.jsx lines 135-142).  The JS falsy test
`!height || !weight` becomes a test against `0`. -/
def calculateLBM (weight height : ℚ) (gender : Gender) : ℚ :=
  if height = 0 ∨ weight = 0 then weight
  else
    match gender with
    | .male => 1.1 * weight - 128 * (weight / height) ^ 2
    | .female => 1.07 * weight - 148 * (weight / height) ^ 2

/- Model-name string constants, exactly as they appear in the source. -/

def baeAdult : String := "Bae (2020) Adult"
def shaferAdult : String := "Shafer (Adult)"
def ginsbergPed : String := "Ginsberg (Pediatric)"
def scottPedsAdult : String := "Scott (Peds/Adult)"
def mintoAdult : String := "Minto (Adult)"
def rigbyJonesPed : String := "Rigby-Jones (Pediatric)"
def mcfarlanPed : String := "McFarlan (Pediatric)"
def maitreAdult : String := "Maitre (Adult)"
def jeleazcovAdult : String := "Jeleazcov (2014) Adult"
def balyanPed : String := "Balyan (2020) Pediatric"
def standardAdult : String := "Standard (Adult)"
def pediatricScaled : String := "Pediatric (Scaled)"
def geptsAdult : String := "Gepts (1995) Adult"
def bartkowskaPicu : String := "Bartkowska-Sniatkowska (2016) PICU"

/-- The per-(drug, model) coefficient chain of `getPKParameters`
(App.jsx lines 182-323), i.e. the body after the weight guard and before the
final `V1` clamp.  `rpow75` stands for `(·) ** 0.75`. -/
def pkFormula (rpow75 : ℚ → ℚ) (drug : Drug) (model : String) (patient : Patient) :
    PKParams :=
  let age := patient.age
  let weight := patient.weight
  let height := patient.height
  let gender := patient.gender
  match drug with
  | .Fentanyl =>
      if model = baeAdult then
        let wRatio := weight / 70
        ⟨10.1 * wRatio, 26.5 * wRatio, 206.0 * wRatio,
         0.704 * rpow75 wRatio, 2.38 * rpow75 wRatio, 1.49 * rpow75 wRatio, 0.147⟩
      else if model = shaferAdult then
        ⟨15, 40, 200, 0.5, 1.5, 1.0, 0.14⟩
      else if model = ginsbergPed then
        ⟨0.5 * weight, 1.8 * weight, 8.5 * weight,
         0.022 * weight, 0.05 * weight, 0.03 * weight, 0.16⟩
      else if model = scottPedsAdult then
        let wRatio := weight / 70
        ⟨4.61 * wRatio, 16.9 * wRatio, 189 * wRatio,
         0.78 * wRatio, 1.25 * wRatio, 0.96 * wRatio, 0.13⟩
      else
        let wRatio := weight / 70
        ⟨10.1 * wRatio, 26.5 * wRatio, 206 * wRatio,
         0.704 * rpow75 wRatio, 2.38 * rpow75 wRatio, 1.49 * rpow75 wRatio, 0.147⟩
  | .Remifentanil =>
      if model = mintoAdult then
        let lbm := calculateLBM weight height gender
        let lbmVar := if 0 < lbm then lbm else weight
        ⟨5.1 - 0.0201 * (age - 40) + 0.072 * (lbmVar - 55),
         9.82 - 0.0811 * (age - 40) + 0.108 * (lbmVar - 55),
         5.42,
         2.6 - 0.0162 * (age - 40) + 0.0191 * (lbmVar - 55),
         2.05 - 0.0301 * (age - 40),
         0.076 - 0.00113 * (age - 40),
         0.595 - 0.007 * (age - 40)⟩
      else if model = rigbyJonesPed then
        ⟨0.7 * weight, 1.0 * weight, 0.7 * weight,
         0.05 * weight, 0.04 * weight, 0.02 * weight, 0.9⟩
      else ⟨0, 0, 0, 0, 0, 0, 0⟩
  | .Morphine =>
      if model = mcfarlanPed then
        ⟨0.5 * weight, 0.9 * weight, 2.0 * weight,
         0.03 * weight, 0.06 * weight, 0.015 * weight, 0.01⟩
      else if model = maitreAdult then
        ⟨0.2 * weight, 0.8 * weight, 2.5 * weight,
         0.025 * weight, 0.05 * weight, 0.01 * weight, 0.005⟩
      else ⟨0, 0, 0, 0, 0, 0, 0⟩
  | .Hydromorphone =>
      if model = jeleazcovAdult then
        let wRatio := weight / 70
        let ageFactor := max 0.5 (1 - 0.01 * (age - 67))
        ⟨3.35 * wRatio, 13.9 * wRatio, 145.0 * wRatio,
         1.01 * rpow75 wRatio * ageFactor, 1.47 * rpow75 wRatio,
         1.41 * rpow75 wRatio, 0.02⟩
      else if model = balyanPed then
        let wRatio := weight / 70
        ⟨33.0 * wRatio, 146.0 * wRatio, 0,
         0.748 * rpow75 wRatio, 1.57 * rpow75 wRatio, 0, 0.03⟩
      else if model = standardAdult then
        ⟨0.25 * weight, 0.6 * weight, 4.0 * weight,
         0.02 * weight, 0.02 * weight, 0.01 * weight, 0.02⟩
      else if model = pediatricScaled then
        let wRatio := weight / 70
        ⟨17.5 * wRatio, 42 * wRatio, 280 * wRatio,
         1.4 * rpow75 wRatio, 1.4 * rpow75 wRatio, 0.7 * rpow75 wRatio, 0.03⟩
      else
        let wRatio := weight / 70
        ⟨3.35 * wRatio, 13.9 * wRatio, 145.0 * wRatio,
         1.01 * rpow75 wRatio, 1.47 * rpow75 wRatio, 1.41 * rpow75 wRatio, 0.02⟩
  | .Methadone =>
      let wRatio := weight / 70
      ⟨21.5 * wRatio, 75.1 * wRatio, 484.0 * wRatio,
       (9.45 / 60) * rpow75 wRatio, (325.0 / 60) * rpow75 wRatio,
       (136.0 / 60) * rpow75 wRatio, 0.05⟩
  | .Sufentanil =>
      if model = geptsAdult then
        ⟨14.2, 40.0, 217.0, 0.94, 1.9, 1.1, 0.17⟩
      else if model = bartkowskaPicu then
        let wRatio := weight / 70
        ⟨11.5 * wRatio, 40.0 * wRatio, 0,
         (19.5 / 60) * rpow75 wRatio, (15.3 / 60) * rpow75 wRatio, 0, 0.15⟩
      else ⟨0, 0, 0, 0, 0, 0, 0⟩

/-- The neutral fallback parameters returned for missing / non-positive
weight (App.jsx line 180). -/
def neutralParams : PKParams := ⟨1, 1, 0, 1, 0, 0, 0.1⟩

/-- `getPKParameters` (App.jsx lines 178-327): weight guard, coefficient
chain, final `V1` clamp.  The `isNaN(params.V1)` half of the clamp condition
is vacuous in the exact-rational embedding. -/
def getPKParameters (rpow75 : ℚ → ℚ) (drug : Drug) (model : String)
    (patient : Patient) : PKParams :=
  if patient.weight ≤ 0 then neutralParams
  else
    let params := pkFormula rpow75 drug model patient
    if params.V1 ≤ 0.1 then { params with V1 := 1.0 } else params

/- Unit-string constants, exactly as they appear in the source. -/

def mcgPerHr : String := "mcg/hr"
def mgPerHr : String := "mg/hr"
def mcgPerKgMin : String := "mcg/kg/min"
def mcgPerMin : String := "mcg/min"
def mcgPerKgHr : String := "mcg/kg/hr"
def mgPerKgHr : String := "mg/kg/hr"

/-- Whether the drug is dosed in mg (`['Morphine','Hydromorphone','Methadone']
.includes(drug)` in `convertToStandardUnit`, and the identical `===` chain in
`simulateConcentration`). -/
def isMgDrug : Drug → Bool
  | .Morphine => true
  | .Hydromorphone => true
  | .Methadone => true
  | _ => false

/-- The intermediate mcg/hr value of `convertToStandardUnit`
(the `switch` in App.jsx lines 336-344, including the `default` case). -/
def mcgHrValue (rate : ℚ) (unit : String) (weight : ℚ) : ℚ :=
  if unit = mcgPerHr then rate
  else if unit = mgPerHr then rate * 1000
  else if unit = mcgPerKgMin then rate * weight * 60
  else if unit = mcgPerMin then rate * 60
  else if unit = mcgPerKgHr then rate * weight
  else if unit = mgPerKgHr then rate * weight * 1000
  else rate

/-- `convertToStandardUnit` (App.jsx lines 330-348). -/
def convertToStandardUnit (rate : ℚ) (unit : String) (weight : ℚ) (drug : Drug) : ℚ :=
  let valInMcgHr := mcgHrValue rate unit weight
  if isMgDrug drug then valInMcgHr / 1000 else valInMcgHr

/-- Simulator-level dosing events (the `processedEvents` fed to
`simulateConcentration`). -/
inductive DoseEvent
  | bolus (time amount : ℚ)
  | infusionStart (time rate : ℚ)
  | infusionStop (time : ℚ)
deriving DecidableEq, Repr

def DoseEvent.time : DoseEvent → ℚ
  | .bolus t _ => t
  | .infusionStart t _ => t
  | .infusionStop t => t

/-- Timeline source events maintained by the UI (`events` state): boluses and
un-expanded infusions with a duration. -/
inductive TimelineEvent
  | bolus (time amount : ℚ)
  | infusion (time rate duration : ℚ)
deriving DecidableEq, Repr

/-- The run-simulation effect's expansion of timeline events into simulator
events (App.jsx lines 584-596): each infusion becomes an `infusion_start` at
its time and an `infusion_stop` at `time + duration`. -/
def expandEvents : List TimelineEvent → List DoseEvent
  | [] => []
  | .bolus t a :: rest => .bolus t a :: expandEvents rest
  | .infusion t r dur :: rest =>
      .infusionStart t r :: .infusionStop (t + dur) :: expandEvents rest

/-- The infusion event materialised by `addInfusion` (App.jsx lines 676-684):
an indefinite infusion gets the concrete duration
`simDuration - time + 60`; otherwise the entered duration is used. -/
def mkInfusionEvent (isInfinite : Bool) (simDuration time rate durInput : ℚ) :
    TimelineEvent :=
  .infusion time rate (if isInfinite then simDuration - time + 60 else durInput)

/-!  The simulation engine (`simulateConcentration`, App.jsx lines 352-420). -/

/-- `scaleFactor` (App.jsx line 365): internal state is mcg-based. -/
def scaleFactor (drug : Drug) : ℚ := if isMgDrug drug then 1000 else 1

/-- The integration step `dt = 1/6` minute. -/
def dt : ℚ := 1 / 6

/- Derived rate constants (App.jsx lines 357-362).  These depend only on the
parameters and are computed once per simulation in the source. -/

def k10 (p : PKParams) : ℚ := p.Cl / p.V1
def k12 (p : PKParams) : ℚ := p.Q2 / p.V1
def k21 (p : PKParams) : ℚ := p.Q2 / p.V2
def k13 (p : PKParams) : ℚ := if 0 < p.V3 then p.Q3 / p.V1 else 0
def k31 (p : PKParams) : ℚ := if 0 < p.V3 then p.Q3 / p.V3 else 0

/-- The mutable integrator state: compartment amounts `x1,x2,x3`, effect-site
state `xe`, and the single shared `currentInfusionRate` scalar. -/
@[ext]
structure SimState where
  x1 : ℚ
  x2 : ℚ
  x3 : ℚ
  xe : ℚ
  rate : ℚ
deriving DecidableEq, Repr

def initState : SimState := ⟨0, 0, 0, 0, 0⟩

/-- Application of one dosing event (App.jsx lines 384-390): a bolus adds
`amount * scaleFactor` to `x1`; an infusion start overwrites the rate scalar
with `rate * scaleFactor / 60`; an infusion stop zeroes it. -/
def applyEvent (scale : ℚ) (s : SimState) : DoseEvent → SimState
  | .bolus _ amount => { s with x1 := s.x1 + amount * scale }
  | .infusionStart _ rate => { s with rate := rate * scale / 60 }
  | .infusionStop _ => { s with rate := 0 }

/-- The event-consuming `while` loop of one step (App.jsx lines 381-393):
apply queued events whose time is `≤ t`, in queue order, returning the new
state and the remaining queue. -/
def processEvents (scale t : ℚ) : SimState → List DoseEvent → SimState × List DoseEvent
  | s, [] => (s, [])
  | s, e :: rest =>
      if e.time ≤ t then processEvents scale t (applyEvent scale s e) rest
      else (s, e :: rest)

/-- One explicit-Euler update (App.jsx lines 395-407).  All four deltas are
computed from the pre-update state; `cp = x1/V1` here is the top-of-step
value used for the effect-site derivative.  The `Number.isFinite` resets are
vacuous in the exact-rational embedding. -/
def eulerStep (p : PKParams) (s : SimState) : SimState :=
  { x1 := s.x1 + (s.rate - (k10 p + k12 p + k13 p) * s.x1
                    + k21 p * s.x2 + k31 p * s.x3) * dt
    x2 := s.x2 + (k12 p * s.x1 - k21 p * s.x2) * dt
    x3 := s.x3 + (k13 p * s.x1 - k31 p * s.x3) * dt
    xe := s.xe + p.ke0 * (s.x1 / p.V1 - s.xe) * dt
    rate := s.rate }

/-- One emitted `ConcentrationSample` (App.jsx lines 412-416).  `s` is the
state *after* the step's Euler update: the source recomputes `cp = x1 / V1`
at line 409, after updating the state, and emits that value. -/
structure Sample where
  time : ℤ
  cp : ℚ
  ce : ℚ
deriving DecidableEq, Repr

def mkSample (p : PKParams) (step : ℕ) (s : SimState) : Sample :=
  ⟨jsRound ((step : ℚ) * dt), round2 (s.x1 / p.V1), round2 s.xe⟩

/-- Stable insertion by event time, modelling the stable JS
`sort((a, b) => a.time - b.time)`. -/
def insertByTime (e : DoseEvent) : List DoseEvent → List DoseEvent
  | [] => [e]
  | x :: xs => if e.time ≤ x.time then e :: x :: xs else x :: insertByTime e xs

def sortByTime : List DoseEvent → List DoseEvent
  | [] => []
  | e :: es => insertByTime e (sortByTime es)

/-- The main integration loop (App.jsx lines 378-418), recursing on the
number `n` of remaining iterations; `step` is the current loop counter.
A sample is emitted every 6 steps (`stepsPerMin = Math.round(1/dt) = 6`). -/
def simRun (p : PKParams) (scale : ℚ) : ℕ → ℕ → SimState → List DoseEvent → List Sample
  | 0, _, _, _ => []
  | n + 1, step, s, q =>
      let sq := processEvents scale ((step : ℚ) * dt) s q
      let s2 := eulerStep p sq.1
      (if step % 6 = 0 then [mkSample p step s2] else [])
        ++ simRun p scale n (step + 1) s2 sq.2

/-- `totalSteps = Math.floor(durationMinutes / dt)`; the loop runs for steps
`0 .. totalSteps` inclusive, i.e. `totalSteps + 1` iterations (none when the
duration is negative). -/
def natSteps (durationMinutes : ℚ) : ℕ := (⌊durationMinutes / dt⌋ + 1).toNat

/-- `simulateConcentration` (App.jsx lines 352-420).  The degenerate-input
guard `!V1 || V1 <= 0` returns the empty series. -/
def simulateConcentration (events : List DoseEvent) (p : PKParams)
    (durationMinutes : ℚ) (drugType : Drug) : List Sample :=
  if p.V1 ≤ 0 then []
  else simRun p (scaleFactor drugType) (natSteps durationMinutes) 0 initState
    (sortByTime events)

/-!  Reference recurrences used to state properties of the loop. -/

/-- The pair (state, remaining queue) after completing integration steps
`start, start+1, …, start+k-1`, starting from `sq`. -/
def advFrom (p : PKParams) (scale : ℚ) (start : ℕ)
    (sq : SimState × List DoseEvent) : ℕ → SimState × List DoseEvent
  | 0 => sq
  | k + 1 =>
      let prev := advFrom p scale start sq k
      let mid := processEvents scale (((start + k : ℕ) : ℚ) * dt) prev.1 prev.2
      (eulerStep p mid.1, mid.2)

/-- The pair (state, remaining queue) of the simulation of `events` after
completing steps `0 .. k-1`. -/
def runTo (events : List DoseEvent) (p : PKParams) (drug : Drug) (k : ℕ) :
    SimState × List DoseEvent :=
  advFrom p (scaleFactor drug) 0 (initState, sortByTime events) k

/-- The state in the middle of step `k`: after the step's event processing,
before its Euler update. -/
def midState (events : List DoseEvent) (p : PKParams) (drug : Drug) (k : ℕ) :
    SimState :=
  (processEvents (scaleFactor drug) ((k : ℚ) * dt)
    (runTo events p drug k).1 (runTo events p drug k).2).1

/-- The top-of-step plasma concentration of step `k`: `x1 / V1` read after the
step's event processing but before any of the step's Euler state updates
(App.jsx line 399). -/
def topOfStepCp (events : List DoseEvent) (p : PKParams) (drug : Drug) (k : ℕ) : ℚ :=
  (midState events p drug k).x1 / p.V1

/-- Number of samples emitted for a given duration: steps divisible by 6
among `0 .. natSteps - 1`. -/
def numSamples (durationMinutes : ℚ) : ℕ := (natSteps durationMinutes + 5) / 6

/-- The `i`-th emitted sample, described directly by the state recurrence:
it is emitted at step `6*i`, its time is the minute index `i`, and its `cp`
and `ce` are read from the state *after* that step's updates. -/
def sampleAt (events : List DoseEvent) (p : PKParams) (drug : Drug) (i : ℕ) : Sample :=
  ⟨(i : ℤ), round2 ((runTo events p drug (6 * i + 1)).1.x1 / p.V1),
   round2 (runTo events p drug (6 * i + 1)).1.xe⟩

/-- Closed-form description of the whole emitted series: one sample per
simulated minute, each reading the post-update state of its step. -/
def samplesSpec (events : List DoseEvent) (p : PKParams) (durationMinutes : ℚ)
    (drug : Drug) : List Sample :=
  if p.V1 ≤ 0 then []
  else (List.range (numSamples durationMinutes)).map (sampleAt events p drug)

/-- The final unit-class division of `convertToStandardUnit` (App.jsx lines
346-347), applied to an intermediate mcg/hr value. -/
def finalizeRate (drug : Drug) (v : ℚ) : ℚ := if isMgDrug drug then v / 1000 else v

/-- A model-name string outside every drug's enumerated model list; used to
instantiate theorems about the unmatched-model fallbacks. -/
def unknownModel : String := "No Such Model"

/-- A rate-unit string outside the six supported units. -/
def bogusUnit : String := "units/hr"

/-- Boolean form of the event-pending test `event.time <= t`. -/
def timeLe (t : ℚ) (e : DoseEvent) : Bool := decide (e.time ≤ t)

/-- Whether a dosing event touches the infusion-rate scalar. -/
def notBolus : DoseEvent → Bool
  | .bolus _ _ => false
  | _ => true

/-- The infusion rate that results from processing the event list `l` in
order starting from rate `r0`: determined by the last non-bolus event of `l`
(an `infusion_start` sets `rate * scale / 60`, an `infusion_stop` sets `0`),
or `r0` if `l` contains only boluses. -/
def activeRateFrom (scale r0 : ℚ) (l : List DoseEvent) : ℚ :=
  match l.reverse.find? notBolus with
  | some (.infusionStart _ r) => r * scale / 60
  | some _ => 0
  | none => r0

/-- The infusion rate determined by a processed event list, starting from the
initial rate `0`: `rate * scale / 60` of the most recently processed
`infusion_start` that is not followed by a later-processed `infusion_stop`,
and `0` otherwise. -/
def activeRate (scale : ℚ) (l : List DoseEvent) : ℚ := activeRateFrom scale 0 l

/-- Componentwise sum of two integrator states. -/
def addState (a b : SimState) : SimState :=
  ⟨a.x1 + b.x1, a.x2 + b.x2, a.x3 + b.x3, a.xe + b.xe, a.rate + b.rate⟩

/-- The bolus amount carried by an event (`0` for infusion events). -/
def amountOf : DoseEvent → ℚ
  | .bolus _ a => a
  | _ => 0

/-- Total bolus amount of an event list. -/
def amountSum (l : List DoseEvent) : ℚ := (l.map amountOf).sum

/-- An event list consisting of boluses only. -/
def BolusOnly (l : List DoseEvent) : Prop := ∀ e ∈ l, notBolus e = false

instance : DecidablePred BolusOnly := fun l =>
  inferInstanceAs (Decidable (∀ e ∈ l, notBolus e = false))

/-!  ## Lemmas about the integration loop -/

theorem jsRound_intCast (n : ℤ) : jsRound (n : ℚ) = n := by
  rw [jsRound, Int.floor_int_add]
  norm_num

theorem round2_zero : round2 0 = 0 := by
  have : jsRound 0 = 0 := by
    have := jsRound_intCast 0
    simpa using this
  simp [round2, this]

theorem eulerStep_rate (p : PKParams) (s : SimState) :
    (eulerStep p s).rate = s.rate := rfl

/-- The event-consuming loop is `foldl` over the `takeWhile` prefix of
pending events, leaving the `dropWhile` suffix as the remaining queue. -/
theorem processEvents_eq (scale t : ℚ) (s : SimState) (q : List DoseEvent) :
    processEvents scale t s q
      = (List.foldl (applyEvent scale) s (q.takeWhile (timeLe t)),
         q.dropWhile (timeLe t)) := by
  induction q generalizing s with
  | nil => simp [processEvents]
  | cons e rest ih =>
      by_cases h : e.time ≤ t
      · rw [processEvents, if_pos h]
        simp [timeLe, h, ih]
      · rw [processEvents, if_neg h]
        simp [timeLe, h]

theorem applyEvent_rate (scale : ℚ) (s : SimState) (e : DoseEvent) :
    (applyEvent scale s e).rate
      = match e with
        | .bolus _ _ => s.rate
        | .infusionStart _ r => r * scale / 60
        | .infusionStop _ => 0 := by
  cases e <;> rfl

/-- The rate after folding a list of events is determined by its last
non-bolus event. -/
theorem foldl_applyEvent_rate (scale : ℚ) (s : SimState) (l : List DoseEvent) :
    (List.foldl (applyEvent scale) s l).rate = activeRateFrom scale s.rate l := by
  induction l generalizing s with
  | nil => simp [activeRateFrom]
  | cons e rest ih =>
      rw [List.foldl_cons, ih]
      unfold activeRateFrom
      rw [List.reverse_cons, List.find?_append]
      cases hf : rest.reverse.find? notBolus with
      | some x => cases x <;> simp [hf]
      | none =>
          cases e with
          | bolus t a => simp [hf, List.find?, notBolus, applyEvent]
          | infusionStart t r => simp [hf, List.find?, notBolus, applyEvent]
          | infusionStop t => simp [hf, List.find?, notBolus, applyEvent]

theorem activeRateFrom_append (scale r0 : ℚ) (l1 l2 : List DoseEvent) :
    activeRateFrom scale r0 (l1 ++ l2)
      = activeRateFrom scale (activeRateFrom scale r0 l1) l2 := by
  unfold activeRateFrom
  rw [List.reverse_append, List.find?_append]
  cases hf : l2.reverse.find? notBolus with
  | some x => cases x <;> simp [hf]
  | none => simp [hf]

/-- Dropping events pending at `t0` and then those pending at a later `t1`
is the same as dropping those pending at `t1`. -/
theorem dropWhile_timeLe_dropWhile (t0 t1 : ℚ) (h : t0 ≤ t1) (q : List DoseEvent) :
    (q.dropWhile (timeLe t0)).dropWhile (timeLe t1) = q.dropWhile (timeLe t1) := by
  induction q with
  | nil => simp
  | cons e rest ih =>
      by_cases h0 : e.time ≤ t0
      · have h1 : e.time ≤ t1 := le_trans h0 h
        simp only [List.dropWhile_cons]
        simp [timeLe, h0, h1, ih]
      · have he : List.dropWhile (timeLe t0) (e :: rest) = e :: rest := by
          simp [List.dropWhile_cons, timeLe, h0]
        rw [he]

/-- Pending events at a later threshold split as those pending at an earlier
threshold followed by the newly pending ones. -/
theorem takeWhile_timeLe_append (t0 t1 : ℚ) (h : t0 ≤ t1) (q : List DoseEvent) :
    q.takeWhile (timeLe t1)
      = q.takeWhile (timeLe t0) ++ (q.dropWhile (timeLe t0)).takeWhile (timeLe t1) := by
  induction q with
  | nil => simp
  | cons e rest ih =>
      by_cases h0 : e.time ≤ t0
      · have h1 : e.time ≤ t1 := le_trans h0 h
        simp only [List.takeWhile_cons, List.dropWhile_cons]
        simp [timeLe, h0, h1, ih]
      · have he : List.dropWhile (timeLe t0) (e :: rest) = e :: rest := by
          simp [List.dropWhile_cons, timeLe, h0]
        have he' : List.takeWhile (timeLe t0) (e :: rest) = [] := by
          simp [List.takeWhile_cons, timeLe, h0]
        rw [he, he', List.nil_append]

theorem runTo_zero (events : List DoseEvent) (p : PKParams) (drug : Drug) :
    runTo events p drug 0 = (initState, sortByTime events) := rfl

theorem runTo_succ (events : List DoseEvent) (p : PKParams) (drug : Drug) (k : ℕ) :
    runTo events p drug (k + 1)
      = (eulerStep p (midState events p drug k),
         (runTo events p drug k).2.dropWhile (timeLe ((k : ℚ) * dt))) := by
  show advFrom _ _ _ _ (k + 1) = _
  rw [advFrom]
  rw [midState, processEvents_eq]
  simp [runTo, processEvents_eq]

theorem stepTime_mono (k : ℕ) : (k : ℚ) * dt ≤ ((k + 1 : ℕ) : ℚ) * dt := by
  push_cast
  unfold dt
  have : (k : ℚ) ≤ (k : ℚ) + 1 := by linarith
  linarith

/-- After completing steps `0 .. k`, the remaining queue is exactly the
suffix of the sorted queue past the events pending at time `k * dt`. -/
theorem runTo_queue (events : List DoseEvent) (p : PKParams) (drug : Drug) :
    ∀ k : ℕ, (runTo events p drug (k + 1)).2
      = (sortByTime events).dropWhile (timeLe ((k : ℚ) * dt)) := by
  intro k
  induction k with
  | zero => rw [runTo_succ, runTo_zero]
  | succ k ih =>
      rw [runTo_succ, ih, dropWhile_timeLe_dropWhile _ _ (stepTime_mono k)]

theorem midState_eq_foldl (events : List DoseEvent) (p : PKParams) (drug : Drug)
    (k : ℕ) :
    midState events p drug k
      = List.foldl (applyEvent (scaleFactor drug)) (runTo events p drug k).1
          ((runTo events p drug k).2.takeWhile (timeLe ((k : ℚ) * dt))) := by
  rw [midState, processEvents_eq]

theorem advFrom_shift (p : PKParams) (scale : ℚ) (start : ℕ)
    (sq : SimState × List DoseEvent) :
    ∀ j : ℕ, advFrom p scale (start + 1) (advFrom p scale start sq 1) j
      = advFrom p scale start sq (j + 1) := by
  intro j
  induction j with
  | zero => rfl
  | succ j ih =>
      have e : start + (j + 1) = start + 1 + j := by omega
      calc advFrom p scale (start + 1) (advFrom p scale start sq 1) (j + 1)
          = (eulerStep p (processEvents scale (((start + 1 + j : ℕ) : ℚ) * dt)
                (advFrom p scale (start + 1) (advFrom p scale start sq 1) j).1
                (advFrom p scale (start + 1) (advFrom p scale start sq 1) j).2).1,
             (processEvents scale (((start + 1 + j : ℕ) : ℚ) * dt)
                (advFrom p scale (start + 1) (advFrom p scale start sq 1) j).1
                (advFrom p scale (start + 1) (advFrom p scale start sq 1) j).2).2) := rfl
        _ = (eulerStep p (processEvents scale (((start + 1 + j : ℕ) : ℚ) * dt)
                (advFrom p scale start sq (j + 1)).1
                (advFrom p scale start sq (j + 1)).2).1,
             (processEvents scale (((start + 1 + j : ℕ) : ℚ) * dt)
                (advFrom p scale start sq (j + 1)).1
                (advFrom p scale start sq (j + 1)).2).2) := by rw [ih]
        _ = advFrom p scale start sq (j + 1 + 1) := by rw [← e]; rfl

/-- The loop output, described per iteration index: iteration `j` (at step
`start + j`) contributes a sample when its step index is divisible by 6,
reading the state after that step. -/
theorem simRun_eq_filterMap (p : PKParams) (scale : ℚ) :
    ∀ (n start : ℕ) (sq : SimState × List DoseEvent),
      simRun p scale n start sq.1 sq.2
        = (List.range n).filterMap (fun j =>
            if (start + j) % 6 = 0 then
              some (mkSample p (start + j) (advFrom p scale start sq (j + 1)).1)
            else none) := by
  intro n
  induction n with
  | zero => intro start sq; rfl
  | succ n ih =>
      intro start sq
      have hstep : simRun p scale (n + 1) start sq.1 sq.2
          = (if start % 6 = 0 then
                [mkSample p start (advFrom p scale start sq 1).1]
              else [])
            ++ simRun p scale n (start + 1) (advFrom p scale start sq 1).1
                (advFrom p scale start sq 1).2 := rfl
      rw [hstep, ih (start + 1) (advFrom p scale start sq 1)]
      have htail : (List.range n).filterMap (fun j =>
            if (start + 1 + j) % 6 = 0 then
              some (mkSample p (start + 1 + j)
                (advFrom p scale (start + 1) (advFrom p scale start sq 1) (j + 1)).1)
            else none)
          = (List.range n).filterMap (fun j =>
              if (start + (j + 1)) % 6 = 0 then
                some (mkSample p (start + (j + 1))
                  (advFrom p scale start sq (j + 1 + 1)).1)
              else none) := by
        refine List.filterMap_congr (fun j _ => ?_)
        rw [advFrom_shift]
        have e : start + (j + 1) = start + 1 + j := by omega
        rw [e]
      rw [htail, List.range_succ_eq_map, List.filterMap_cons, List.filterMap_map]
      simp only [Nat.add_zero, Nat.zero_add]
      have hcomp : ((fun j =>
            if (start + j) % 6 = 0 then
              some (mkSample p (start + j) (advFrom p scale start sq (j + 1)).1)
            else none) ∘ Nat.succ)
          = fun j =>
              if (start + (j + 1)) % 6 = 0 then
                some (mkSample p (start + (j + 1))
                  (advFrom p scale start sq (j + 1 + 1)).1)
              else none := rfl
      rw [hcomp]
      by_cases h0 : start % 6 = 0
      · rw [if_pos h0, if_pos h0]
        rfl
      · rw [if_neg h0, if_neg h0]
        rfl

/-- Collapsing the every-6th-iteration filter into a direct enumeration of
the emitted samples. -/
theorem range_filterMap_mod6 (g : ℕ → Sample) :
    ∀ n : ℕ, (List.range n).filterMap
        (fun j => if j % 6 = 0 then some (g j) else none)
      = (List.range ((n + 5) / 6)).map (fun i => g (6 * i)) := by
  intro n
  induction n with
  | zero => rfl
  | succ n ih =>
      rw [List.range_succ, List.filterMap_append, ih]
      by_cases h : n % 6 = 0
      · have h1 : (n + 1 + 5) / 6 = (n + 5) / 6 + 1 := by omega
        have h2 : 6 * ((n + 5) / 6) = n := by omega
        rw [h1, List.range_succ, List.map_append]
        simp [h, h2]
      · have h1 : (n + 1 + 5) / 6 = (n + 5) / 6 := by omega
        rw [h1]
        simp [h]

theorem jsRound_sample_time (i : ℕ) :
    jsRound (((6 * i : ℕ) : ℚ) * dt) = (i : ℤ) := by
  have : ((6 * i : ℕ) : ℚ) * dt = ((i : ℤ) : ℚ) := by
    push_cast
    unfold dt
    ring
  rw [this, jsRound_intCast]

/-- The simulation loop emits exactly the samples described by the state
recurrence: one sample per minute, reading `cp` and `ce` from the state
after the sampling step's updates. -/
theorem simulate_eq_samplesSpec (events : List DoseEvent) (p : PKParams)
    (d : ℚ) (drug : Drug) :
    simulateConcentration events p d drug = samplesSpec events p d drug := by
  unfold simulateConcentration samplesSpec
  by_cases hv : p.V1 ≤ 0
  · rw [if_pos hv, if_pos hv]
  · rw [if_neg hv, if_neg hv]
    have h0 := simRun_eq_filterMap p (scaleFactor drug) (natSteps d) 0
      (initState, sortByTime events)
    rw [h0]
    have hz : (List.range (natSteps d)).filterMap (fun j =>
          if (0 + j) % 6 = 0 then
            some (mkSample p (0 + j)
              (advFrom p (scaleFactor drug) 0 (initState, sortByTime events) (j + 1)).1)
          else none)
        = (List.range (natSteps d)).filterMap (fun j =>
            if j % 6 = 0 then
              some (mkSample p j (runTo events p drug (j + 1)).1)
            else none) := by
      refine List.filterMap_congr (fun j _ => ?_)
      rw [Nat.zero_add]
      rfl
    rw [hz, range_filterMap_mod6 (fun j => mkSample p j (runTo events p drug (j + 1)).1)]
    refine List.map_congr_left (fun i _ => ?_)
    unfold mkSample sampleAt
    rw [jsRound_sample_time]

/-- The run of the empty event list stays in the all-zero state forever. -/
theorem eulerStep_initState (p : PKParams) : eulerStep p initState = initState := by
  simp [eulerStep, initState]

theorem runTo_nil (p : PKParams) (drug : Drug) :
    ∀ k : ℕ, runTo [] p drug k = (initState, []) := by
  intro k
  induction k with
  | zero => rfl
  | succ k ih =>
      show advFrom _ _ _ _ (k + 1) = _
      rw [advFrom]
      show (eulerStep p (processEvents _ _ (runTo [] p drug k).1 (runTo [] p drug k).2).1,
        (processEvents _ _ (runTo [] p drug k).1 (runTo [] p drug k).2).2) = _
      rw [ih]
      simp [processEvents, eulerStep_initState]

/-!  ## Permutation and sortedness of the event queue -/

theorem perm_insertByTime (e : DoseEvent) (l : List DoseEvent) :
    List.Perm (insertByTime e l) (e :: l) := by
  induction l with
  | nil => exact List.Perm.refl _
  | cons x xs ih =>
      by_cases h : e.time ≤ x.time
      · rw [insertByTime, if_pos h]
      · rw [insertByTime, if_neg h]
        exact (ih.cons x).trans (List.Perm.swap e x xs)

theorem perm_sortByTime (l : List DoseEvent) : List.Perm (sortByTime l) l := by
  induction l with
  | nil => exact List.Perm.refl _
  | cons e es ih => exact (perm_insertByTime e _).trans (ih.cons e)

theorem pairwise_insertByTime (e : DoseEvent) (l : List DoseEvent)
    (h : l.Pairwise (fun a b => a.time ≤ b.time)) :
    (insertByTime e l).Pairwise (fun a b => a.time ≤ b.time) := by
  induction l with
  | nil => simp [insertByTime]
  | cons x xs ih =>
      rw [List.pairwise_cons] at h
      obtain ⟨hx, hxs⟩ := h
      by_cases hc : e.time ≤ x.time
      · rw [insertByTime, if_pos hc]
        refine List.Pairwise.cons ?_ (List.Pairwise.cons hx hxs)
        intro y hy
        rcases List.mem_cons.mp hy with rfl | hy'
        · exact hc
        · exact le_trans hc (hx y hy')
      · rw [insertByTime, if_neg hc]
        refine List.Pairwise.cons ?_ (ih hxs)
        intro y hy
        have hy2 : y ∈ e :: xs := (perm_insertByTime e xs).mem_iff.mp hy
        rcases List.mem_cons.mp hy2 with rfl | hy'
        · exact le_of_lt (lt_of_not_le hc)
        · exact hx y hy'

theorem pairwise_sortByTime (l : List DoseEvent) :
    (sortByTime l).Pairwise (fun a b => a.time ≤ b.time) := by
  induction l with
  | nil => simp [sortByTime]
  | cons e es ih => exact pairwise_insertByTime e _ ih

/-- On a time-sorted queue the pending-prefix is exactly the filter of
pending events. -/
theorem takeWhile_eq_filter_of_sorted (t : ℚ) :
    ∀ q : List DoseEvent, q.Pairwise (fun a b => a.time ≤ b.time) →
      q.takeWhile (timeLe t) = q.filter (timeLe t) := by
  intro q
  induction q with
  | nil => intro _; rfl
  | cons e rest ih =>
      intro h
      rw [List.pairwise_cons] at h
      obtain ⟨he, hrest⟩ := h
      by_cases hc : e.time ≤ t
      · simp only [List.takeWhile_cons, List.filter_cons]
        simp [timeLe, hc, ih hrest]
      · have h1 : ¬ (timeLe t e = true) := by simp [timeLe, hc]
        rw [List.takeWhile_cons_of_neg h1]
        have h2 : List.filter (timeLe t) (e :: rest) = [] := by
          rw [List.filter_eq_nil_iff]
          intro y hy
          rcases List.mem_cons.mp hy with rfl | hy'
          · exact h1
          · have hey : e.time ≤ y.time := he y hy'
            have : ¬ y.time ≤ t := fun hyt => hc (le_trans hey hyt)
            simp [timeLe, this]
        rw [h2]

/-!  ## Bolus-only event lists and state additivity -/

theorem amountSum_append (l1 l2 : List DoseEvent) :
    amountSum (l1 ++ l2) = amountSum l1 + amountSum l2 := by
  simp [amountSum]

theorem amountSum_perm {l1 l2 : List DoseEvent} (h : List.Perm l1 l2) :
    amountSum l1 = amountSum l2 :=
  (h.map amountOf).sum_eq

/-- The bolus mass pending at time `t` splits over a union of event lists. -/
theorem amountSum_takeWhile_union (t : ℚ) (A B : List DoseEvent) :
    amountSum ((sortByTime (A ++ B)).takeWhile (timeLe t))
      = amountSum ((sortByTime A).takeWhile (timeLe t))
        + amountSum ((sortByTime B).takeWhile (timeLe t)) := by
  rw [takeWhile_eq_filter_of_sorted t _ (pairwise_sortByTime (A ++ B)),
    takeWhile_eq_filter_of_sorted t _ (pairwise_sortByTime A),
    takeWhile_eq_filter_of_sorted t _ (pairwise_sortByTime B),
    amountSum_perm ((perm_sortByTime (A ++ B)).filter (timeLe t)),
    amountSum_perm ((perm_sortByTime A).filter (timeLe t)),
    amountSum_perm ((perm_sortByTime B).filter (timeLe t)),
    List.filter_append, amountSum_append]

theorem bolusOnly_of_perm {l1 l2 : List DoseEvent} (h : List.Perm l1 l2)
    (hb : BolusOnly l1) : BolusOnly l2 :=
  fun e he => hb e (h.symm.subset he)

theorem bolusOnly_sublist {l1 l2 : List DoseEvent} (h : List.Sublist l1 l2)
    (hb : BolusOnly l2) : BolusOnly l1 :=
  fun e he => hb e (h.subset he)

theorem bolusOnly_append {A B : List DoseEvent} (hA : BolusOnly A)
    (hB : BolusOnly B) : BolusOnly (A ++ B) := by
  intro e he
  rcases List.mem_append.mp he with h | h
  · exact hA e h
  · exact hB e h

theorem bolusOnly_runTo_queue {X : List DoseEvent} (p : PKParams) (drug : Drug)
    (hX : BolusOnly X) : ∀ k, BolusOnly (runTo X p drug k).2 := by
  intro k
  have hs : BolusOnly (sortByTime X) := bolusOnly_of_perm (perm_sortByTime X).symm hX
  cases k with
  | zero => exact hs
  | succ k =>
      rw [runTo_queue]
      exact bolusOnly_sublist (List.dropWhile_sublist _) hs

/-- Folding a bolus-only list only adds the scaled total amount to `x1`. -/
theorem foldl_applyEvent_bolusOnly (scale : ℚ) :
    ∀ (l : List DoseEvent) (s : SimState), BolusOnly l →
      List.foldl (applyEvent scale) s l
        = { s with x1 := s.x1 + amountSum l * scale } := by
  intro l
  induction l with
  | nil =>
      intro s _
      simp [amountSum]
  | cons e rest ih =>
      intro s hb
      have hbe : notBolus e = false := hb e (List.mem_cons_self e rest)
      have hbrest : BolusOnly rest := fun x hx => hb x (List.mem_cons_of_mem e hx)
      cases e with
      | bolus te a =>
          rw [List.foldl_cons]
          show List.foldl (applyEvent scale) { s with x1 := s.x1 + a * scale } rest = _
          rw [ih _ hbrest]
          have hsum : amountSum (DoseEvent.bolus te a :: rest)
              = a + amountSum rest := by
            simp [amountSum, amountOf]
          rw [hsum]
          congr 1
          ring
      | infusionStart te r => simp [notBolus] at hbe
      | infusionStop te => simp [notBolus] at hbe

/-- The Euler update is additive in the state (the model is linear). -/
theorem eulerStep_addState (p : PKParams) (a b : SimState) :
    eulerStep p (addState a b) = addState (eulerStep p a) (eulerStep p b) := by
  unfold eulerStep addState
  congr 1 <;> ring

theorem addState_initState : addState initState initState = initState := by
  simp [addState, initState]

theorem runTo_succ_fst (X : List DoseEvent) (p : PKParams) (drug : Drug) (k : ℕ) :
    (runTo X p drug (k + 1)).1 = eulerStep p (midState X p drug k) := by
  rw [runTo_succ]

/-- The mid-step-state form of a bolus-only simulation. -/
theorem midState_bolusOnly {X : List DoseEvent} (p : PKParams) (drug : Drug)
    (hX : BolusOnly X) (k : ℕ) :
    midState X p drug k
      = { (runTo X p drug k).1 with
          x1 := (runTo X p drug k).1.x1
            + amountSum ((runTo X p drug k).2.takeWhile (timeLe ((k : ℚ) * dt)))
              * scaleFactor drug } := by
  rw [midState_eq_foldl]
  exact foldl_applyEvent_bolusOnly _ _ _
    (bolusOnly_sublist (List.takeWhile_sublist _) (bolusOnly_runTo_queue p drug hX k))

/-- The newly pending bolus mass of each step splits over a union of
bolus-only event lists. -/
theorem seg_amount_union (A B : List DoseEvent) (p : PKParams) (drug : Drug)
    (k : ℕ) :
    amountSum ((runTo (A ++ B) p drug k).2.takeWhile (timeLe ((k : ℚ) * dt)))
      = amountSum ((runTo A p drug k).2.takeWhile (timeLe ((k : ℚ) * dt)))
        + amountSum ((runTo B p drug k).2.takeWhile (timeLe ((k : ℚ) * dt))) := by
  cases k with
  | zero => exact amountSum_takeWhile_union _ A B
  | succ j =>
      have tele : ∀ X : List DoseEvent,
          amountSum ((sortByTime X).takeWhile (timeLe (((j + 1 : ℕ) : ℚ) * dt)))
            = amountSum ((sortByTime X).takeWhile (timeLe ((j : ℚ) * dt)))
              + amountSum (((sortByTime X).dropWhile (timeLe ((j : ℚ) * dt))).takeWhile
                  (timeLe (((j + 1 : ℕ) : ℚ) * dt))) := by
        intro X
        rw [takeWhile_timeLe_append _ _ (stepTime_mono j) (sortByTime X),
          amountSum_append]
      have hM := tele (A ++ B)
      have hA := tele A
      have hB := tele B
      have sj := amountSum_takeWhile_union ((j : ℚ) * dt) A B
      have sj1 := amountSum_takeWhile_union (((j + 1 : ℕ) : ℚ) * dt) A B
      rw [runTo_queue, runTo_queue, runTo_queue]
      linarith

/-- State additivity of the bolus-only simulation: the state after any
number of steps on a union of bolus-only event lists is the componentwise
sum of the states of the separate simulations. -/
theorem runTo_state_add (A B : List DoseEvent) (p : PKParams) (drug : Drug)
    (hA : BolusOnly A) (hB : BolusOnly B) :
    ∀ k, (runTo (A ++ B) p drug k).1
      = addState (runTo A p drug k).1 (runTo B p drug k).1 := by
  intro k
  induction k with
  | zero =>
      rw [runTo_zero, runTo_zero, runTo_zero]
      exact addState_initState.symm
  | succ k ih =>
      rw [runTo_succ_fst, runTo_succ_fst, runTo_succ_fst, ← eulerStep_addState]
      congr 1
      rw [midState_bolusOnly p drug (bolusOnly_append hA hB) k,
        midState_bolusOnly p drug hA k, midState_bolusOnly p drug hB k,
        seg_amount_union A B p drug k, ih]
      unfold addState
      ring_nf

/-!  ## Claim theorems -/

/-- C1 counterexample: with a single unit bolus at time 0, `V1 = 1`,
`Cl = 1` and duration 0, the sampling step 0 emits `cp = 0.83` (the
post-update `x1 / V1 = 5/6` rounded), while the claim's top-of-step reading
(before the step's Euler update) is `1`, which rounds to `1 ≠ 0.83`. -/
theorem C1_counterexample :
    simulateConcentration [.bolus 0 1] ⟨1, 1, 0, 1, 0, 0, 0⟩ 0 Drug.Fentanyl
      = [⟨0, 83 / 100, 0⟩]
    ∧ round2 (topOfStepCp [.bolus 0 1] ⟨1, 1, 0, 1, 0, 0, 0⟩ Drug.Fentanyl 0) = 1
    ∧ (83 / 100 : ℚ) ≠ 1 := by
  refine ⟨?_, ?_, by norm_num⟩
  · norm_num [simulateConcentration, simRun, processEvents, eulerStep, applyEvent,
      sortByTime, insertByTime, natSteps, scaleFactor, isMgDrug, mkSample, jsRound,
      round2, dt, k10, k12, k21, k13, k31, DoseEvent.time, initState]
  · norm_num [topOfStepCp, midState, runTo, advFrom, processEvents, applyEvent,
      sortByTime, insertByTime, scaleFactor, isMgDrug, jsRound, round2, dt,
      DoseEvent.time, initState]

/-- C1 (amended): at every sampling step of `simulate` (every 6th
integration step), the emitted `cp` equals `round(Cp, 2)` where `Cp = x1/V1`
is re-read *after* that step's state updates are applied (App.jsx line 409);
the pre-update top-of-step `Cp` of line 399 is used only for the effect-site
derivative.  The whole emitted series equals the closed-form `samplesSpec`,
whose `i`-th sample reads the state after step `6*i`. -/
theorem C1_sampling_reads_post_update_cp (events : List DoseEvent)
    (p : PKParams) (d : ℚ) (drug : Drug) :
    simulateConcentration events p d drug = samplesSpec events p d drug :=
  simulate_eq_samplesSpec events p d drug

/-- C9: simulation of the empty event list yields a series whose every
sample has `cp = 0` and `ce = 0` (for every parameter set, duration and
drug). -/
theorem C9_empty_events_zero_series (p : PKParams) (d : ℚ) (drug : Drug) :
    simulateConcentration [] p d drug
      = if p.V1 ≤ 0 then []
        else (List.range (numSamples d)).map (fun i => ⟨(i : ℤ), 0, 0⟩) := by
  rw [simulate_eq_samplesSpec]
  unfold samplesSpec
  by_cases hv : p.V1 ≤ 0
  · rw [if_pos hv, if_pos hv]
  · rw [if_neg hv, if_neg hv]
    refine List.map_congr_left (fun i _ => ?_)
    unfold sampleAt
    rw [runTo_nil]
    show (⟨(i : ℤ), round2 (initState.x1 / p.V1), round2 initState.xe⟩ : Sample) = _
    simp [initState, round2_zero]

/-- C2 counterexample: simulate is not pointwise additive across a union of
event lists.  (i) Rounding: two boluses of `0.004` each round to `cp = 0`
separately but their union rounds to `cp = 0.01 ≠ 0 + 0`.  (ii) Infusions:
the union of two identical `infusion_start` events drives the model with the
single overwritten rate, so the union's `cp` equals one run's `cp`, not the
pointwise sum. -/
theorem C2_counterexample :
    (simulateConcentration ([.bolus 0 (1/250)] ++ [.bolus 0 (1/250)])
        ⟨1, 1, 0, 0, 0, 0, 0⟩ 0 Drug.Fentanyl = [⟨0, 1/100, 0⟩]
      ∧ simulateConcentration [.bolus 0 (1/250)]
          ⟨1, 1, 0, 0, 0, 0, 0⟩ 0 Drug.Fentanyl = [⟨0, 0, 0⟩]
      ∧ (1/100 : ℚ) ≠ 0 + 0)
    ∧ (simulateConcentration ([.infusionStart 0 6] ++ [.infusionStart 0 6])
        ⟨1, 1, 0, 0, 0, 0, 0⟩ 0 Drug.Fentanyl = [⟨0, 1/50, 0⟩]
      ∧ simulateConcentration [.infusionStart 0 6]
          ⟨1, 1, 0, 0, 0, 0, 0⟩ 0 Drug.Fentanyl = [⟨0, 1/50, 0⟩]
      ∧ (1/50 : ℚ) ≠ 1/50 + 1/50) := by
  refine ⟨⟨?_, ?_, by norm_num⟩, ⟨?_, ?_, by norm_num⟩⟩ <;>
    norm_num [simulateConcentration, simRun, processEvents, eulerStep, applyEvent,
      sortByTime, insertByTime, natSteps, scaleFactor, isMgDrug, mkSample, jsRound,
      round2, dt, k10, k12, k21, k13, k31, DoseEvent.time, initState]

/-- C2 (amended): for fixed parameters the model is linear, but only before
rounding and only for bolus events: for bolus-only event lists `A` and `B`,
the integrator state of `simulate(A ∪ B)` is the componentwise sum of the
separate states at every step, and each emitted sample of the union is the
2-decimal rounding of the sum of the separate pre-rounding `cp` (resp. `ce`)
values.  The emitted (rounded) series themselves need not sum pointwise, and
with infusion events the single overwritten rate scalar breaks additivity
altogether. -/
theorem C2_bolus_linearity_prerounding (A B : List DoseEvent) (p : PKParams)
    (d : ℚ) (drug : Drug) (hA : BolusOnly A) (hB : BolusOnly B) :
    (∀ k, (runTo (A ++ B) p drug k).1
        = addState (runTo A p drug k).1 (runTo B p drug k).1)
    ∧ (0 < p.V1 → ∀ i, i < numSamples d →
        (simulateConcentration (A ++ B) p d drug).get? i
          = some ⟨(i : ℤ),
              round2 ((runTo A p drug (6 * i + 1)).1.x1 / p.V1
                + (runTo B p drug (6 * i + 1)).1.x1 / p.V1),
              round2 ((runTo A p drug (6 * i + 1)).1.xe
                + (runTo B p drug (6 * i + 1)).1.xe)⟩) := by
  refine ⟨runTo_state_add A B p drug hA hB, fun hv i hi => ?_⟩
  rw [simulate_eq_samplesSpec]
  unfold samplesSpec
  rw [if_neg (not_le.mpr hv), List.get?_map, List.get?_range hi]
  unfold sampleAt
  simp only [Option.map_some']
  rw [runTo_state_add A B p drug hA hB (6 * i + 1)]
  simp [addState, add_div]

/-- C2 witness: the union of two boluses at time 0 under neutral parameters
emits, at the first sample, the rounded sum of the separate pre-rounding
concentrations. -/
theorem C2_witness :
    (simulateConcentration ([DoseEvent.bolus 0 1] ++ [DoseEvent.bolus 0 2])
        ⟨1, 1, 0, 0, 0, 0, 0⟩ 0 Drug.Fentanyl).get? 0
      = some ⟨((0 : ℕ) : ℤ),
          round2 ((runTo [DoseEvent.bolus 0 1] ⟨1, 1, 0, 0, 0, 0, 0⟩
                Drug.Fentanyl (6 * 0 + 1)).1.x1
              / (⟨1, 1, 0, 0, 0, 0, 0⟩ : PKParams).V1
            + (runTo [DoseEvent.bolus 0 2] ⟨1, 1, 0, 0, 0, 0, 0⟩
                Drug.Fentanyl (6 * 0 + 1)).1.x1
              / (⟨1, 1, 0, 0, 0, 0, 0⟩ : PKParams).V1),
          round2 ((runTo [DoseEvent.bolus 0 1] ⟨1, 1, 0, 0, 0, 0, 0⟩
                Drug.Fentanyl (6 * 0 + 1)).1.xe
            + (runTo [DoseEvent.bolus 0 2] ⟨1, 1, 0, 0, 0, 0, 0⟩
                Drug.Fentanyl (6 * 0 + 1)).1.xe)⟩ :=
  (C2_bolus_linearity_prerounding [DoseEvent.bolus 0 1] [DoseEvent.bolus 0 2]
      ⟨1, 1, 0, 0, 0, 0, 0⟩ 0 Drug.Fentanyl (by decide) (by decide)).2
    (by norm_num) 0 (by norm_num [numSamples, natSteps, dt])

/-- C4: after event processing at each integration step `k`, the single
infusion-rate scalar equals `activeRate` of the events processed so far (the
sorted queue's prefix pending at `k * dt`): `rate * scaleFactor / 60` of the
most recently processed `infusion_start` with no later-processed
`infusion_stop`, `0` after an `infusion_stop` (or when nothing but boluses
was processed).  In particular rates of concurrent infusions are never
summed: the last start/stop alone determines the scalar. -/
theorem C4_single_active_infusion_rate (events : List DoseEvent) (p : PKParams)
    (drug : Drug) (k : ℕ) :
    (midState events p drug k).rate
      = activeRate (scaleFactor drug)
          ((sortByTime events).takeWhile (timeLe ((k : ℚ) * dt))) := by
  induction k with
  | zero =>
      rw [midState_eq_foldl, foldl_applyEvent_rate, runTo_zero]
      rfl
  | succ k ih =>
      rw [midState_eq_foldl, foldl_applyEvent_rate, runTo_queue, runTo_succ,
        eulerStep_rate, ih]
      rw [activeRate, ← activeRateFrom_append,
        ← takeWhile_timeLe_append _ _ (stepTime_mono k)]
      rfl

/-- C6 counterexample: the claim puts the stop of the indefinite infusion
created at `t = 10` under horizon `H = 120` at time `170`, but the code
materializes `duration = 120 - 10 + 60 = 170` and expands the stop at
`time + duration = 180` (consistent with the claim's own general formula
`t + duration = H + 60`). -/
theorem C6_counterexample :
    expandEvents [mkInfusionEvent true 120 10 3 60]
      = [.infusionStart 10 3, .infusionStop 180]
    ∧ (180 : ℚ) ≠ 170 := by
  constructor
  · simp [mkInfusionEvent, expandEvents]
    norm_num
  · norm_num

/-- C6 (amended): an infusion created as indefinite at time `t` under horizon
`H` is materialized with duration `H - t + 60`, so its expansion yields an
`infusion_start` at `t` and an `infusion_stop` at `t + duration = H + 60`;
for `t = 10`, `H = 120` the stop is at `180`.  The duration is a concrete
number fixed at creation (the expansion takes no horizon input at all, so a
later horizon change cannot move the stop). -/
theorem C6_indefinite_infusion_expansion (H t r durInput : ℚ) :
    mkInfusionEvent true H t r durInput = .infusion t r (H - t + 60)
    ∧ expandEvents [mkInfusionEvent true H t r durInput]
        = [.infusionStart t r, .infusionStop (H + 60)]
    ∧ expandEvents [mkInfusionEvent true 120 10 r durInput]
        = [.infusionStart 10 r, .infusionStop 180] := by
  refine ⟨rfl, ?_, ?_⟩ <;> simp [mkInfusionEvent, expandEvents] <;> ring_nf

/-- C7: whenever the patient's weight is missing (`0`) or non-positive, the
resolver returns exactly the neutral defaults
`{V1:1, V2:1, V3:0, Cl:1, Q2:0, Q3:0, ke0:0.1}` for every drug and model. -/
theorem C7_nonpositive_weight_neutral_defaults (rpow75 : ℚ → ℚ) (drug : Drug)
    (model : String) (patient : Patient) (hw : patient.weight ≤ 0) :
    getPKParameters rpow75 drug model patient = neutralParams := by
  simp [getPKParameters, hw]

/-- C7 witness: a zero-weight patient gets the neutral defaults. -/
theorem C7_witness :
    getPKParameters id Drug.Fentanyl baeAdult ⟨40, 0, 165, Gender.male⟩
      = neutralParams :=
  C7_nonpositive_weight_neutral_defaults id Drug.Fentanyl baeAdult
    ⟨40, 0, 165, Gender.male⟩ (by norm_num)

/-- C3: the resolver always returns `V1 > 0.1` (for every power function,
drug, model string and patient), and whenever the weight is positive and the
computed (pre-clamp) `V1` is `≤ 0.1`, the final guard forces `V1` to exactly
`1.0`. -/
theorem C3_V1_clamp (rpow75 : ℚ → ℚ) (drug : Drug) (model : String)
    (patient : Patient) :
    0.1 < (getPKParameters rpow75 drug model patient).V1
    ∧ (0 < patient.weight → (pkFormula rpow75 drug model patient).V1 ≤ 0.1 →
        (getPKParameters rpow75 drug model patient).V1 = 1) := by
  unfold getPKParameters
  by_cases hw : patient.weight ≤ 0
  · rw [if_pos hw]
    exact ⟨by norm_num [neutralParams], fun h _ => absurd h (not_lt.mpr hw)⟩
  · rw [if_neg hw]
    by_cases hv : (pkFormula rpow75 drug model patient).V1 ≤ 0.1
    · rw [if_pos hv]
      exact ⟨by norm_num, fun _ _ => by norm_num⟩
    · rw [if_neg hv]
      exact ⟨lt_of_not_le hv, fun _ h => absurd h hv⟩

/-- C3 witness: for Remifentanil with an unmatched model name the computed
`V1` is `0 ≤ 0.1`, and the returned `V1` is exactly `1`. -/
theorem C3_witness :
    (getPKParameters id Drug.Remifentanil unknownModel ⟨40, 50, 160, Gender.male⟩).V1
      = 1 :=
  (C3_V1_clamp id Drug.Remifentanil unknownModel ⟨40, 50, 160, Gender.male⟩).2
    (by norm_num)
    (by simp [pkFormula, unknownModel, mintoAdult, rigbyJonesPed]
        all_goals norm_num)

/-- C10: for a positive-weight patient, Remifentanil, Morphine and Sufentanil
with a model name outside the drug's enumerated list do NOT fall back to the
neutral defaults: the coefficient chain leaves every parameter `0`, the final
clamp turns `V1` into `1`, and everything else (including `Cl` and `ke0`)
stays exactly `0`.  By contrast, Fentanyl and Hydromorphone have an explicit
fallback coefficient set for unmatched model names (the Bae-shaped and the
Jeleazcov-shaped parameters respectively). -/
theorem C10_unmatched_model_zero_fallback (rpow75 : ℚ → ℚ) (patient : Patient)
    (model : String) (hw : 0 < patient.weight) :
    (model ≠ mintoAdult → model ≠ rigbyJonesPed →
        getPKParameters rpow75 Drug.Remifentanil model patient = ⟨1, 0, 0, 0, 0, 0, 0⟩)
    ∧ (model ≠ mcfarlanPed → model ≠ maitreAdult →
        getPKParameters rpow75 Drug.Morphine model patient = ⟨1, 0, 0, 0, 0, 0, 0⟩)
    ∧ (model ≠ geptsAdult → model ≠ bartkowskaPicu →
        getPKParameters rpow75 Drug.Sufentanil model patient = ⟨1, 0, 0, 0, 0, 0, 0⟩)
    ∧ (⟨1, 0, 0, 0, 0, 0, 0⟩ : PKParams) ≠ neutralParams
    ∧ (model ≠ baeAdult → model ≠ shaferAdult → model ≠ ginsbergPed →
        model ≠ scottPedsAdult →
        pkFormula rpow75 Drug.Fentanyl model patient
          = ⟨10.1 * (patient.weight / 70), 26.5 * (patient.weight / 70),
             206 * (patient.weight / 70), 0.704 * rpow75 (patient.weight / 70),
             2.38 * rpow75 (patient.weight / 70),
             1.49 * rpow75 (patient.weight / 70), 0.147⟩)
    ∧ (model ≠ jeleazcovAdult → model ≠ balyanPed → model ≠ standardAdult →
        model ≠ pediatricScaled →
        pkFormula rpow75 Drug.Hydromorphone model patient
          = ⟨3.35 * (patient.weight / 70), 13.9 * (patient.weight / 70),
             145.0 * (patient.weight / 70), 1.01 * rpow75 (patient.weight / 70),
             1.47 * rpow75 (patient.weight / 70),
             1.41 * rpow75 (patient.weight / 70), 0.02⟩) := by
  have hw' : ¬ patient.weight ≤ 0 := not_le.mpr hw
  refine ⟨fun h1 h2 => ?_, fun h1 h2 => ?_, fun h1 h2 => ?_,
    by norm_num [neutralParams], fun h1 h2 h3 h4 => ?_, fun h1 h2 h3 h4 => ?_⟩
  · have hp : pkFormula rpow75 Drug.Remifentanil model patient = ⟨0, 0, 0, 0, 0, 0, 0⟩ := by
      simp [pkFormula, h1, h2]
    simp [getPKParameters, hw', hp]
    all_goals norm_num
  · have hp : pkFormula rpow75 Drug.Morphine model patient = ⟨0, 0, 0, 0, 0, 0, 0⟩ := by
      simp [pkFormula, h1, h2]
    simp [getPKParameters, hw', hp]
    all_goals norm_num
  · have hp : pkFormula rpow75 Drug.Sufentanil model patient = ⟨0, 0, 0, 0, 0, 0, 0⟩ := by
      simp [pkFormula, h1, h2]
    simp [getPKParameters, hw', hp]
    all_goals norm_num
  · simp [pkFormula, h1, h2, h3, h4]
  · simp [pkFormula, h1, h2, h3, h4]

/-- C10 witness: Remifentanil with a concrete unmatched model name and
weight 50 returns `V1 = 1` and all other parameters `0`. -/
theorem C10_witness :
    getPKParameters id Drug.Remifentanil unknownModel ⟨40, 50, 160, Gender.male⟩
      = ⟨1, 0, 0, 0, 0, 0, 0⟩ :=
  (C10_unmatched_model_zero_fallback id ⟨40, 50, 160, Gender.male⟩ unknownModel
      (by norm_num)).1
    (by simp [unknownModel, mintoAdult])
    (by simp [unknownModel, rigbyJonesPed])

/-- C5 counterexample: the claim says an unrecognized unit string returns the
raw rate unchanged for every drug, but for an mg-dosed drug the raw rate is
still divided by 1000: `convertRate(5, 'units/hr', 70, 'Morphine')` is
`0.005`, not `5`. -/
theorem C5_counterexample :
    convertToStandardUnit 5 bogusUnit 70 Drug.Morphine = 1 / 200
    ∧ (1 / 200 : ℚ) ≠ 5 := by
  constructor
  · simp [convertToStandardUnit, mcgHrValue, isMgDrug, bogusUnit, mcgPerHr,
      mgPerHr, mcgPerKgMin, mcgPerMin, mcgPerKgHr, mgPerKgHr]
    all_goals norm_num
  · norm_num

/-- C5 (amended): the six supported units are converted to an intermediate
mcg/hr value exactly as claimed, the mg-dosed class divides the intermediate
value by 1000 and the mcg-dosed class returns it unchanged, and
`convertRate(2, 'mcg/kg/min', 10, 'Fentanyl') = 1200`; an unrecognized unit
passes the raw rate through as the intermediate mcg/hr value, so it is
returned unchanged only for mcg-dosed drugs and is divided by 1000 for
mg-dosed drugs. -/
theorem C5_convert_rate (rate weight : ℚ) (drug : Drug) :
    convertToStandardUnit rate mcgPerHr weight drug = finalizeRate drug rate
    ∧ convertToStandardUnit rate mgPerHr weight drug
        = finalizeRate drug (rate * 1000)
    ∧ convertToStandardUnit rate mcgPerKgMin weight drug
        = finalizeRate drug (rate * weight * 60)
    ∧ convertToStandardUnit rate mcgPerMin weight drug
        = finalizeRate drug (rate * 60)
    ∧ convertToStandardUnit rate mcgPerKgHr weight drug
        = finalizeRate drug (rate * weight)
    ∧ convertToStandardUnit rate mgPerKgHr weight drug
        = finalizeRate drug (rate * weight * 1000)
    ∧ (∀ unit : String,
        unit ∉ [mcgPerHr, mgPerHr, mcgPerKgMin, mcgPerMin, mcgPerKgHr, mgPerKgHr] →
        convertToStandardUnit rate unit weight drug = finalizeRate drug rate)
    ∧ (isMgDrug drug = true → finalizeRate drug rate = rate / 1000)
    ∧ (isMgDrug drug = false → finalizeRate drug rate = rate)
    ∧ convertToStandardUnit 2 mcgPerKgMin 10 Drug.Fentanyl = 1200 := by
  refine ⟨?_, ?_, ?_, ?_, ?_, ?_, fun unit hu => ?_, fun h => ?_, fun h => ?_, ?_⟩
  · simp [convertToStandardUnit, mcgHrValue, finalizeRate, mcgPerHr, mgPerHr,
      mcgPerKgMin, mcgPerMin, mcgPerKgHr, mgPerKgHr]
  · simp [convertToStandardUnit, mcgHrValue, finalizeRate, mcgPerHr, mgPerHr,
      mcgPerKgMin, mcgPerMin, mcgPerKgHr, mgPerKgHr]
  · simp [convertToStandardUnit, mcgHrValue, finalizeRate, mcgPerHr, mgPerHr,
      mcgPerKgMin, mcgPerMin, mcgPerKgHr, mgPerKgHr]
  · simp [convertToStandardUnit, mcgHrValue, finalizeRate, mcgPerHr, mgPerHr,
      mcgPerKgMin, mcgPerMin, mcgPerKgHr, mgPerKgHr]
  · simp [convertToStandardUnit, mcgHrValue, finalizeRate, mcgPerHr, mgPerHr,
      mcgPerKgMin, mcgPerMin, mcgPerKgHr, mgPerKgHr]
  · simp [convertToStandardUnit, mcgHrValue, finalizeRate, mcgPerHr, mgPerHr,
      mcgPerKgMin, mcgPerMin, mcgPerKgHr, mgPerKgHr]
  · simp only [List.mem_cons, List.not_mem_nil, or_false, not_or] at hu
    obtain ⟨h1, h2, h3, h4, h5, h6⟩ := hu
    simp [convertToStandardUnit, mcgHrValue, finalizeRate, h1, h2, h3, h4, h5, h6]
  · simp [finalizeRate, h]
  · simp [finalizeRate, h]
  · simp [convertToStandardUnit, mcgHrValue, finalizeRate, isMgDrug,
      mcgPerHr, mgPerHr, mcgPerKgMin, mcgPerMin, mcgPerKgHr, mgPerKgHr]
    all_goals norm_num

/-- C5 witness: an unrecognized unit for the mcg-dosed Fentanyl passes the
raw rate through unchanged. -/
theorem C5_witness :
    convertToStandardUnit 7 bogusUnit 70 Drug.Fentanyl
      = finalizeRate Drug.Fentanyl 7 :=
  ((C5_convert_rate 7 70 Drug.Fentanyl).2.2.2.2.2.2.1) bogusUnit (by
    simp [bogusUnit, mcgPerHr, mgPerHr, mcgPerKgMin, mcgPerMin, mcgPerKgHr,
      mgPerKgHr])

/-- C8: `estimateGrowth` is exactly the claimed piecewise function on each of
the claimed pieces: fixed values for `age < 0` and `age = 0`, the rounded
linear interpolation on `1 ≤ age ≤ 12`, the rounded gender-specific
interpolation capped at the ceilings (male 171/65, female 158/53) on
`12 < age ≤ 18`, and the fixed adult reference for `age > 18`.  In
particular `estimateGrowth 0 male = {60, 6}`, and at exactly `age = 18` the
male result is the capped interpolation `{171, 65}`, not the adult reference
`{171, 68}`. -/
theorem C8_estimate_growth (age : ℚ) (gender : Gender) :
    (age < 0 → estimateGrowth age gender = ⟨50, 3⟩)
    ∧ (age = 0 → estimateGrowth age gender = ⟨60, 6⟩)
    ∧ (1 ≤ age → age ≤ 12 →
        estimateGrowth age gender
          = ⟨(jsRound (75 + (age - 1) * 6.8) : ℤ), (jsRound (9 + (age - 1) * 3.0) : ℤ)⟩)
    ∧ (12 < age → age ≤ 18 →
        estimateGrowth age Gender.male
          = ⟨(min (jsRound (150 + (age - 12) * 3.5)) 171 : ℤ),
             (min (jsRound (40 + (age - 12) * 4.2)) 65 : ℤ)⟩)
    ∧ (12 < age → age ≤ 18 →
        estimateGrowth age Gender.female
          = ⟨(min (jsRound (150 + (age - 12) * 1.5)) 158 : ℤ),
             (min (jsRound (40 + (age - 12) * 2.0)) 53 : ℤ)⟩)
    ∧ (18 < age → estimateGrowth age Gender.male = ⟨171, 68⟩)
    ∧ (18 < age → estimateGrowth age Gender.female = ⟨158, 53⟩)
    ∧ estimateGrowth 0 Gender.male = ⟨60, 6⟩
    ∧ estimateGrowth 18 Gender.male = ⟨171, 65⟩
    ∧ estimateGrowth 18 Gender.male ≠ ⟨171, 68⟩ := by
  refine ⟨fun h => ?_, fun h => ?_, fun h1 h2 => ?_, fun h1 h2 => ?_,
    fun h1 h2 => ?_, fun h => ?_, fun h => ?_, ?_, ?_, ?_⟩
  · cases gender <;> rw [estimateGrowth, if_pos h]
  · cases gender <;> rw [estimateGrowth, if_neg (by linarith), if_pos h]
  · cases gender <;>
      rw [estimateGrowth, if_neg (by linarith), if_neg (by linarith), if_pos h2]
  · rw [estimateGrowth, if_neg (by linarith), if_neg (by linarith),
      if_neg (by linarith), if_pos h2]
  · rw [estimateGrowth, if_neg (by linarith), if_neg (by linarith),
      if_neg (by linarith), if_pos h2]
  · rw [estimateGrowth, if_neg (by linarith), if_neg (by linarith),
      if_neg (by linarith), if_neg (by linarith)]
  · rw [estimateGrowth, if_neg (by linarith), if_neg (by linarith),
      if_neg (by linarith), if_neg (by linarith)]
  · norm_num [estimateGrowth]
  · rw [estimateGrowth, if_neg (by norm_num), if_neg (by norm_num),
      if_neg (by norm_num), if_pos (by norm_num)]
    norm_num [jsRound]
  · rw [estimateGrowth, if_neg (by norm_num), if_neg (by norm_num),
      if_neg (by norm_num), if_pos (by norm_num)]
    norm_num [jsRound]

/-- C8 witness: the interpolation piece evaluated at age 2 gives
height 82 cm and weight 12 kg. -/
theorem C8_witness :
    estimateGrowth 2 Gender.male = ⟨(jsRound (75 + (2 - 1) * 6.8) : ℤ),
      (jsRound (9 + (2 - 1) * 3.0) : ℤ)⟩ :=
  (C8_estimate_growth 2 Gender.male).2.2.1 (by norm_num) (by norm_num)

end OpioidSim
